import Mathlib

/-!
# Verification of the kopia-helpers sync-destination dispatcher

A shallow embedding of the sync-orchestration core of the `kopia-helpers`
scripts (`kopia_utils.py` and `kopia-start-backups.py`): remote-path
normalization and the running-sync command-line matcher, the per-backend
sync command builder, the persisted sync-status store, and the
per-destination scheduler loop.  External effects (subprocess execution,
process enumeration, the rclone remote listing, and the current time) are
passed in explicitly as oracle values, so every definition is executable.
-/

namespace KopiaHelpers

/-! ## Python string primitives -/

/-- Python `\s` / `str.strip()` whitespace characters (ASCII range). -/
def pyIsSpace (c : Char) : Bool :=
  c = ' ' || c = '\t' || c = '\n' || c = '\r' || c = '\x0b' || c = '\x0c'

/-- The two quote characters stripped by `strip('"\'')` and accepted by the
command-line matcher. -/
def isQuoteChar (c : Char) : Bool := c = '"' || c = '\''

/-- Python `str.rstrip(chars)`: remove the trailing run of characters
satisfying `p`. -/
def rstripP (p : Char → Bool) (l : List Char) : List Char :=
  (l.reverse.dropWhile p).reverse

/-- Python `str.strip(chars)`: remove the leading and trailing runs of
characters satisfying `p`. -/
def stripP (p : Char → Bool) (l : List Char) : List Char :=
  rstripP p (l.dropWhile p)

/-- One step of the decimal accumulator: fail on a non-digit. -/
def digitStep (acc : Option Nat) (c : Char) : Option Nat :=
  acc.bind fun n => if c.isDigit then some (n * 10 + (c.toNat - '0'.toNat)) else none

/-- Digit-string to number; `none` if empty or any non-digit appears. -/
def digitsToNat (ds : List Char) : Option Nat :=
  if ds.isEmpty then none else ds.foldl digitStep (some 0)

/-- Python `int(s)` on a base-10 ASCII string: optional surrounding
whitespace, an optional sign, then at least one digit; anything else raises
`ValueError`, modelled as `none`. -/
def pyInt (l : List Char) : Option Int :=
  let t := stripP pyIsSpace l
  if t.head? = some '-' then (digitsToNat t.tail).map fun n => -(n : Int)
  else if t.head? = some '+' then (digitsToNat t.tail).map fun n => (n : Int)
  else (digitsToNat t).map fun n => (n : Int)

/-! ## `_normalize_remote_path` and `_path_in_cmdline` (kopia_utils.py) -/

/-- `KopiaSyncRunner._normalize_remote_path`, non-Windows branch:
`path.strip('"\'')` then `path.rstrip('/')` (the Windows branch additionally
lowercases). -/
def normalize_remote_path (s : String) : String :=
  ⟨rstripP (· = '/') (stripP isQuoteChar s.data)⟩

/-- `\s*X`: zero or more whitespace characters, then the continuation `k`,
with full backtracking over how many are consumed. -/
def wsStar (k : List Char → Bool) : List Char → Bool
  | [] => k []
  | c :: r => k (c :: r) || (pyIsSpace c && wsStar k r)

/-- `\s+X`: at least one whitespace character, then the continuation `k`. -/
def wsPlus (k : List Char → Bool) : List Char → Bool
  | [] => false
  | c :: r => pyIsSpace c && wsStar k r

/-- Match the literal `lit`, then the continuation `k`. -/
def litThen (lit : List Char) (k : List Char → Bool) (s : List Char) : Bool :=
  if lit.isPrefixOf s then k (s.drop lit.length) else false

/-- `["\']?(?:\s|$)`: what the regex requires right after the path. -/
def afterPath : List Char → Bool
  | [] => true
  | c :: r =>
    pyIsSpace c ||
      (isQuoteChar c &&
        (match r with
         | [] => true
         | d :: _ => pyIsSpace d))

/-- The path literal followed by `["\']?(?:\s|$)`. -/
def tryPath (path s : List Char) : Bool :=
  path.isPrefixOf s && afterPath (s.drop path.length)

/-- `["\']?<path>["\']?(?:\s|$)`: the optionally-quoted path and what must
follow it. -/
def qpTail (path : List Char) (s : List Char) : Bool :=
  tryPath path s ||
    (match s with
     | c :: r => isQuoteChar c && tryPath path r
     | [] => false)

/-- The whole pattern `serve\s+webdav\s+["\']?<path>["\']?(?:\s|$)`
anchored at the start of `s`. -/
def matchHere (path s : List Char) : Bool :=
  litThen ['s', 'e', 'r', 'v', 'e']
    (wsPlus (litThen ['w', 'e', 'b', 'd', 'a', 'v'] (wsPlus (qpTail path)))) s

/-- `re.search`: try the pattern at every start position. -/
def searchFrom (path : List Char) : List Char → Bool
  | [] => false
  | c :: r => matchHere path (c :: r) || searchFrom path r

/-- `KopiaSyncRunner._path_in_cmdline`, non-Windows branch: the regex
`serve\s+webdav\s+["\']?<re.escape(remote_path)>["\']?(?:\s|$)` searched
anywhere in `cmdline`. -/
def path_in_cmdline (cmdline remote_path : String) : Bool :=
  searchFrom remote_path.data cmdline.data

/-- Python `needle in hay` on strings. -/
def listContains (needle : List Char) : List Char → Bool
  | [] => needle.isEmpty
  | c :: r => needle.isPrefixOf (c :: r) || listContains needle r

/-! ## `parse_interval` (kopia-start-backups.py) -/

/-- `parse_interval`: `''` defaults to 3600 seconds; otherwise strip and
lowercase, multiply a trailing `h`/`m`/`s` unit out, and fall back to
`int(interval_str)`.  `none` models the `ValueError` that `int()` raises on
a non-numeric string. -/
def parse_interval (interval_str : String) : Option Int :=
  if interval_str = "" then some 3600
  else
    let t := (stripP pyIsSpace interval_str.data).map Char.toLower
    if t.getLast? = some 'h' then (pyInt t.dropLast).map (· * 3600)
    else if t.getLast? = some 'm' then (pyInt t.dropLast).map (· * 60)
    else if t.getLast? = some 's' then pyInt t.dropLast
    else pyInt t

/-! ## Destination configuration and the command builder (kopia_utils.py) -/

/-- `KOPIA_EXE` from kopia_utils.py. -/
def KOPIA_EXE : String := "kopia"

/-- A destination configuration dict from the `sync-to` list.  The
backend-specific string parameters (`remote-path`, `bucket`, `container`,
…) live in `params`; `type`, `interval` and `sync-args` are the remaining
keys the core reads.  `none` models an absent key. -/
structure DestConfig where
  type : Option String
  params : List (String × String)
  interval : Option String
  syncArgs : List String
deriving DecidableEq

/-- `dest_config.get(k)` for a backend parameter key. -/
def getParam (d : DestConfig) (k : String) : Option String :=
  d.params.lookup k

/-- `KopiaSyncRunner.CLOUD_BACKENDS`. -/
def CLOUD_BACKENDS : List String := ["rclone", "s3", "gcs", "azure", "b2", "gdrive"]

/-- `KopiaSyncRunner.BACKEND_PARAMS`: for each backend type the required
parameter names zipped with their command-line flag prefixes. -/
def backendParams (t : String) : Option (List (String × String)) :=
  if t = "rclone" then some [("remote-path", "--remote-path=")]
  else if t = "s3" then some [("bucket", "--bucket=")]
  else if t = "gcs" then some [("bucket", "--bucket=")]
  else if t = "azure" then
    some [("container", "--container="), ("storage-account", "--storage-account=")]
  else if t = "b2" then some [("bucket", "--bucket=")]
  else if t = "gdrive" then some [("folder-id", "--folder-id=")]
  else if t = "filesystem" then some [("path", "--path=")]
  else if t = "sftp" then
    some [("path", "--path="), ("host", "--host="), ("username", "--username=")]
  else if t = "webdav" then some [("url", "--url=")]
  else none

/-- Python `', '.join(l)`. -/
def joinComma : List String → String
  | [] => ""
  | [x] => x
  | x :: y :: rest => x ++ ", " ++ joinComma (y :: rest)

/-- `KopiaSyncRunner.get_destination_id`. -/
def get_destination_id (d : DestConfig) : String :=
  let t := d.type.getD "unknown"
  if t = "rclone" then "rclone:" ++ (getParam d "remote-path").getD "unknown"
  else if t = "s3" || t = "gcs" || t = "b2" then t ++ ":" ++ (getParam d "bucket").getD "unknown"
  else if t = "azure" then "azure:" ++ (getParam d "container").getD "unknown"
  else if t = "gdrive" then "gdrive:" ++ (getParam d "folder-id").getD "unknown"
  else if t = "filesystem" then "filesystem:" ++ (getParam d "path").getD "unknown"
  else if t = "sftp" then
    "sftp:" ++ (getParam d "host").getD "unknown" ++ ":" ++ (getParam d "path").getD ""
  else if t = "webdav" then "webdav:" ++ (getParam d "url").getD "unknown"
  else t ++ ":unknown"

/-- `KopiaSyncRunner.build_sync_command`.  `Except.error` models the
`(None, error_message)` return. -/
def build_sync_command (d : DestConfig) (config_file password : String)
    (dry_run : Bool) : Except String (List String) :=
  let dest_type := d.type.getD ""
  if dest_type = "" then .error "Missing 'type' in sync-to destination"
  else
    match backendParams dest_type with
    | none => .error ("Unknown sync-to type: " ++ dest_type)
    | some backend_info =>
      let missing := (backend_info.map Prod.fst).filter fun p => (getParam d p).isNone
      if missing ≠ [] then
        .error ("Missing required parameters for " ++ dest_type ++ ": " ++ joinComma missing)
      else
        .ok <|
          [KOPIA_EXE, "--config-file=" ++ config_file, "--password=" ++ password,
            "repository", "sync-to", dest_type]
          ++ backend_info.map (fun pr => pr.2 ++ (getParam d pr.1).getD "")
          ++ ["--delete"]
          ++ (if dest_type ∈ CLOUD_BACKENDS then ["--flat"] else [])
          ++ (if dest_type = "rclone" then ["--rclone-debug"] else [])
          ++ (if dry_run then ["--dry-run"] else [])
          ++ (if d.syncArgs ≠ [] then
                if dest_type = "rclone" then d.syncArgs.map ("--rclone-args=" ++ ·)
                else d.syncArgs
              else [])

/-! ## The concurrent-sync guard and `sync` (kopia_utils.py) -/

/-- One Unix `ps aux` line is a candidate when it contains `rclone` and,
lowercased, `serve`; the guard then applies `_path_in_cmdline`. -/
def lineMatches (normalized_path : String) (line : String) : Bool :=
  listContains "rclone".data line.data &&
    listContains "serve".data (line.data.map Char.toLower) &&
    path_in_cmdline line normalized_path

/-- `KopiaSyncRunner.is_sync_already_running` (non-Windows branch).
`ps` is the outcome of the process enumeration: `Except.error` models any
exception raised while enumerating or parsing, which the function catches
and converts into `(False, "")`. -/
def is_sync_already_running (d : DestConfig) (ps : Except Unit (List String)) :
    Bool × String :=
  if d.type.getD "" ≠ "rclone" then (false, "")
  else
    let remote_path := (getParam d "remote-path").getD ""
    if remote_path = "" then (false, "")
    else
      match ps with
      | .error _ => (false, "")
      | .ok lines =>
        if lines.any (lineMatches (normalize_remote_path remote_path)) then
          (true, "rclone already syncing to " ++ remote_path)
        else (false, "")

/-- `remote_path.split(':')[0] if ':' in remote_path else remote_path`. -/
def remoteNameOf (remote_path : String) : String :=
  ⟨remote_path.data.takeWhile (· ≠ ':')⟩

/-- The external world as the scheduler sees it: the current UTC time (as
seconds), the process enumeration outcome, which rclone remotes are
configured, and the outcome of executing a built command
(`Except.error msg` models an exception whose text is `msg`; `ok` carries
the exit code and the stripped stderr/stdout). -/
structure SyncEnv where
  now : Int
  psLines : Except Unit (List String)
  rcloneConfigured : String → Bool
  exec : List String → Except String (Int × String × String)

/-- `KopiaSyncRunner.sync`: guard check, rclone-remote check, command
build, then execution.  Returns `(success, error_message)`. -/
def KopiaSyncRunner.sync (d : DestConfig) (config_file password : String)
    (quiet dry_run : Bool) (env : SyncEnv) : Bool × String :=
  let running := is_sync_already_running d env.psLines
  if running.1 then
    (false, "Skipped: " ++ running.2 ++ " (letting previous sync finish)")
  else
    let remote_name := remoteNameOf ((getParam d "remote-path").getD "")
    if d.type.getD "unknown" = "rclone" && !env.rcloneConfigured remote_name then
      (false, "rclone remote '" ++ remote_name ++ "' not configured")
    else
      match build_sync_command d config_file password dry_run with
      | .error e => (false, e)
      | .ok cmd =>
        match env.exec cmd with
        | .error e => (false, e)
        | .ok (rc, stderrText, stdoutText) =>
          if rc = 0 then (true, "")
          else if quiet then
            (false,
              if stderrText ≠ "" then stderrText
              else if stdoutText ≠ "" then stdoutText
              else "kopia exited with code " ++ toString rc)
          else (false, "kopia exited with code " ++ toString rc)

/-! ## The status store (kopia_utils.py) -/

/-- One record of the `cloud_sync` map.  `last_sync` is the parsed ISO
timestamp in seconds (`none`: absent or unparseable); `error` is the
optional error string (`none` models Python `None`/JSON `null`). -/
structure SyncRecord where
  last_sync : Option Int
  success : Bool
  dest_id : String
  error : Option String
deriving DecidableEq

/-- The `cloud_sync` map: composite key `"{repo_name}:{dest_id}"` to
record, in insertion order. -/
abbrev Store := List (String × SyncRecord)

/-- Dictionary lookup. -/
def storeGet (st : Store) (k : String) : Option SyncRecord :=
  match st with
  | [] => none
  | (k', v) :: rest => if k' = k then some v else storeGet rest k

/-- Dictionary assignment: replace in place, else append. -/
def storeSet (st : Store) (k : String) (v : SyncRecord) : Store :=
  match st with
  | [] => [(k, v)]
  | (k', v') :: rest => if k' = k then (k, v) :: rest else (k', v') :: storeSet rest k v

/-- `update_cloud_sync_status`: overwrite the record for
`"{repo_name}:{dest_id}"` with a fresh timestamp. -/
def update_cloud_sync_status (st : Store) (repo_name dest_id : String)
    (success : Bool) (error : Option String) (now : Int) : Store :=
  storeSet st (repo_name ++ ":" ++ dest_id)
    { last_sync := some now, success := success, dest_id := dest_id, error := error }

/-- `is_valid_key` from `cleanup_status_file`: the key equals a valid repo
name or starts with `"{name}:"`. -/
def isValidKey (valid_repo_names : List String) (key : String) : Bool :=
  valid_repo_names.any fun repo_name =>
    key = repo_name || (repo_name ++ ":").data.isPrefixOf key.data

/-- `cleanup_status_file` acting on the `cloud_sync` map: drop every stale
key; the `Bool` is `changed`, i.e. whether `save` is called. -/
def cleanup_status_file (valid_repo_names : List String) (st : Store) :
    Store × Bool :=
  (st.filter (fun kv => isValidKey valid_repo_names kv.1),
   !(st.filter (fun kv => !isValidKey valid_repo_names kv.1)).isEmpty)

/-! ## The scheduler loop `sync_to_cloud` (kopia-start-backups.py) -/

/-- The body of the `for dest_config in sync_destinations` loop: interval
throttling against the stored record, then `sync`, then the status-store
update.  `none` models the uncaught `ValueError` that `parse_interval`
raises on a non-numeric interval string. -/
def syncStep (repo_name config_file password : String)
    (scheduled dry_run : Bool) (env : SyncEnv) (d : DestConfig)
    (st : Store) (all_success : Bool) : Option (Store × Bool) :=
  let dest_id := get_destination_id d
  match parse_interval (d.interval.getD "60m") with
  | none => none
  | some interval_seconds =>
    let throttled :=
      match storeGet st (repo_name ++ ":" ++ dest_id) with
      | some r =>
        r.success &&
          (match r.last_sync with
           | some t => env.now - t < interval_seconds
           | none => false)
      | none => false
    if throttled then some (st, all_success)
    else
      let outcome := KopiaSyncRunner.sync d config_file password scheduled dry_run env
      let st' := update_cloud_sync_status st repo_name dest_id outcome.1
        (if outcome.1 then none else some outcome.2) env.now
      some (st', all_success && outcome.1)

/-- The loop over all destinations, threading the store and the aggregate
success flag. -/
def syncLoop (repo_name config_file password : String)
    (scheduled dry_run : Bool) (env : SyncEnv) :
    List DestConfig → Store → Bool → Option (Store × Bool)
  | [], st, ok => some (st, ok)
  | d :: ds, st, ok =>
    match syncStep repo_name config_file password scheduled dry_run env d st ok with
    | none => none
    | some (st', ok') => syncLoop repo_name config_file password scheduled dry_run env ds st' ok'

/-- `sync_to_cloud`, starting after config-file/password resolution:
returns the final store together with the aggregate success flag. -/
def sync_to_cloud (repo_name config_file password : String)
    (scheduled dry_run : Bool) (env : SyncEnv)
    (sync_destinations : List DestConfig) (st : Store) : Option (Store × Bool) :=
  if sync_destinations.isEmpty then some (st, true)
  else syncLoop repo_name config_file password scheduled dry_run env sync_destinations st true

/-! ## Derived store properties -/

/-- The record-level invariant of claim C6: the error value is present
exactly on failed attempts (`none` models Python `None`/JSON `null`). -/
def recordConsistent (r : SyncRecord) : Prop :=
  r.error.isSome ↔ r.success = false

/-- Every record reachable in the store is consistent. -/
def storeConsistent (st : Store) : Prop :=
  ∀ k r, storeGet st k = some r → recordConsistent r

instance (r : SyncRecord) : Decidable (recordConsistent r) := by
  unfold recordConsistent; infer_instance

/-! ## Concrete fixtures used by witnesses and counterexamples -/

/-- An rclone destination to `onedrive:backups` with the default interval. -/
def destOnedrive : DestConfig :=
  ⟨some "rclone", [("remote-path", "onedrive:backups")], none, []⟩

/-- An environment in which a live rclone webdav serve of
`onedrive:backups` shows up in the process table. -/
def envBusy : SyncEnv :=
  ⟨1000, .ok ["rclone -v serve webdav onedrive:backups --addr 127.0.0.1:8080"],
    fun _ => true, fun _ => .ok (0, "", "")⟩

/-- An idle environment whose executed sync fails with stderr `boom`. -/
def envFailing : SyncEnv :=
  ⟨1000, .ok [], fun _ => true, fun _ => .ok (1, "boom", "")⟩

/-- A store holding one successful record for `R:rclone:onedrive:backups`
written at time 400. -/
def storeRecent : Store :=
  [("R:rclone:onedrive:backups",
    ⟨some 400, true, "rclone:onedrive:backups", none⟩)]

/-- An azure destination missing both of its required parameters. -/
def destAzureMissing : DestConfig := ⟨some "azure", [], none, []⟩

/-- An s3 destination that passes `--rclone-debug` through `sync-args`. -/
def destS3Passthrough : DestConfig :=
  ⟨some "s3", [("bucket", "b")], none, ["--rclone-debug"]⟩

/-- `"rclone -v "`: what precedes the `serve` token in the process line
kopia spawns (`rclone -v serve webdav <remote-path> --addr …`). -/
def preToks : List Char := ['r', 'c', 'l', 'o', 'n', 'e', ' ', '-', 'v', ' ']

/-- `"serve webdav "`. -/
def anchorToks : List Char :=
  ['s', 'e', 'r', 'v', 'e', ' ', 'w', 'e', 'b', 'd', 'a', 'v', ' ']

/-- `" --addr 127.0.0.1:0"`: a representative tail of the spawned line. -/
def tailToks : List Char :=
  [' ', '-', '-', 'a', 'd', 'd', 'r', ' ', '1', '2', '7', '.', '0', '.', '0', '.', '1', ':', '0']

end KopiaHelpers

namespace KopiaHelpers

/-! ## Generic list helper lemmas -/

theorem storeGet_storeSet (st : Store) (k k' : String) (v : SyncRecord) :
    storeGet (storeSet st k v) k' = if k = k' then some v else storeGet st k' := by
  induction st with
  | nil => rfl
  | cons hd tl ih =>
    obtain ⟨k₀, v₀⟩ := hd
    by_cases h₀ : k₀ = k
    · subst h₀
      simp only [storeSet, if_pos rfl, storeGet]
      by_cases h' : k₀ = k' <;> simp [h']
    · simp only [storeSet, if_neg h₀, storeGet]
      rw [ih]
      by_cases h' : k₀ = k'
      · have hk : ¬ k = k' := fun h => h₀ (h'.trans h.symm)
        simp [h', hk]
      · by_cases h'' : k = k' <;> simp [h', h'']

/-! ## C10: the concurrency guard fails open -/

/-- C10: `is_sync_already_running` never propagates an exception: whenever
the process enumeration (or the parsing of its output) raises, modelled by
`Except.error`, the guard returns `(False, "")` for every destination
configuration. -/
theorem C10_guard_fails_open (d : DestConfig) (e : Unit) :
    is_sync_already_running d (Except.error e) = (false, "") := by
  unfold is_sync_already_running
  split
  · rfl
  · split
    · simp [ite_self]
    · rename_i heq
      exact Except.noConfusion heq

/-! ## C5: interval parsing -/

/-- C9: `cleanup_status_file` keeps exactly the records whose composite key
belongs to a valid repository name (equals it, or starts with `"{name}:"`),
saves the file exactly when some key was removed, and on the spec's
three-key scenario removes `"R1:x"` while keeping `"R2:y"` and `"R2"`. -/
theorem C9_cleanup_exact :
    (∀ (valid : List String) (st : Store) (kv : String × SyncRecord),
      kv ∈ (cleanup_status_file valid st).1 ↔
        kv ∈ st ∧ ∃ repo ∈ valid,
          kv.1 = repo ∨ (repo ++ ":").data.isPrefixOf kv.1.data = true) ∧
    (∀ (valid : List String) (st : Store),
      (cleanup_status_file valid st).2 = true ↔
        ∃ kv ∈ st, ∀ repo ∈ valid,
          kv.1 ≠ repo ∧ ¬((repo ++ ":").data.isPrefixOf kv.1.data = true)) ∧
    (∀ r1 r2 r3 : SyncRecord,
      cleanup_status_file ["R2"] [("R1:x", r1), ("R2:y", r2), ("R2", r3)] =
        ([("R2:y", r2), ("R2", r3)], true)) := by
  refine ⟨fun valid st kv => ?_, fun valid st => ?_, fun r1 r2 r3 => ?_⟩
  · simp [cleanup_status_file, List.mem_filter, isValidKey, List.any_eq_true]
  · simp [cleanup_status_file, List.filter_eq_nil_iff, isValidKey, List.any_eq_true,
      List.isEmpty_iff, not_or]
  · rfl

/-! ## C4: interval throttling is a pure skip -/

/-- C4: if the stored record for a destination is successful and its
timestamp is less than the configured interval in the past, the scheduler
step leaves the store (the record and its `last_sync` included) and the
aggregate flag unchanged, for every execution environment; with that
destination alone the aggregate result is `true`. -/
theorem C4_throttle_skip_frame (repo config_file password : String)
    (scheduled dry_run : Bool) (env : SyncEnv) (d : DestConfig) (st : Store)
    (all_success : Bool) (r : SyncRecord) (ts n : Int)
    (hparse : parse_interval (d.interval.getD "60m") = some n)
    (hrec : storeGet st (repo ++ ":" ++ get_destination_id d) = some r)
    (hsucc : r.success = true)
    (hts : r.last_sync = some ts)
    (hlt : env.now - ts < n) :
    syncStep repo config_file password scheduled dry_run env d st all_success =
        some (st, all_success) ∧
      sync_to_cloud repo config_file password scheduled dry_run env [d] st =
        some (st, true) := by
  have hstep : ∀ ok : Bool,
      syncStep repo config_file password scheduled dry_run env d st ok = some (st, ok) := by
    intro ok
    simp only [syncStep, hparse, hrec, hsucc, hts]
    simp [hlt]
  refine ⟨hstep all_success, ?_⟩
  simp only [sync_to_cloud, List.isEmpty_cons, Bool.false_eq_true, if_false, syncLoop,
    hstep true]

/-- C4 witness: a concrete throttled run at `now = 1000` against a record
written at 400 with a 3600-second interval skips and changes nothing. -/
theorem C4_throttle_skip_frame_witness :
    syncStep "R" "cfg" "pw" true false envFailing destOnedrive storeRecent true =
        some (storeRecent, true) ∧
      sync_to_cloud "R" "cfg" "pw" true false envFailing [destOnedrive] storeRecent =
        some (storeRecent, true) :=
  C4_throttle_skip_frame "R" "cfg" "pw" true false envFailing destOnedrive storeRecent
    true ⟨some 400, true, "rclone:onedrive:backups", none⟩ 400 3600
    (by decide) (by decide) (by decide) (by decide) (by decide)

/-! ## C6: the error field is present iff the attempt failed -/

theorem syncStep_storeConsistent (repo config_file password : String)
    (scheduled dry_run : Bool) (env : SyncEnv) (d : DestConfig)
    (st st1 : Store) (ok ok1 : Bool)
    (hinv : storeConsistent st)
    (h : syncStep repo config_file password scheduled dry_run env d st ok =
      some (st1, ok1)) :
    storeConsistent st1 := by
  simp only [syncStep] at h
  split at h
  · exact absurd h (by simp)
  · split at h
    · injection h with h2
      injection h2 with h3 h4
      subst h3
      exact hinv
    · injection h with h2
      injection h2 with h3 h4
      subst h3
      intro k r hk
      simp only [update_cloud_sync_status, storeGet_storeSet] at hk
      by_cases hkey : repo ++ ":" ++ get_destination_id d = k
      · rw [if_pos hkey] at hk
        injection hk with h5
        subst h5
        unfold recordConsistent
        by_cases hs : (KopiaSyncRunner.sync d config_file password scheduled dry_run env).1 <;>
          simp [hs]
      · rw [if_neg hkey] at hk
        exact hinv k r hk

theorem syncLoop_storeConsistent (repo config_file password : String)
    (scheduled dry_run : Bool) (env : SyncEnv) :
    ∀ (dests : List DestConfig) (st : Store) (ok : Bool) (st' : Store) (b : Bool),
      storeConsistent st →
      syncLoop repo config_file password scheduled dry_run env dests st ok =
        some (st', b) →
      storeConsistent st' := by
  intro dests
  induction dests with
  | nil =>
    intro st ok st' b hinv h
    simp only [syncLoop] at h
    injection h with h2
    injection h2 with h3 h4
    subst h3
    exact hinv
  | cons d ds ih =>
    intro st ok st' b hinv h
    simp only [syncLoop] at h
    cases hstep : syncStep repo config_file password scheduled dry_run env d st ok with
    | none => rw [hstep] at h; simp at h
    | some p =>
      obtain ⟨st1, ok1⟩ := p
      rw [hstep] at h
      exact ih st1 ok1 st' b
        (syncStep_storeConsistent repo config_file password scheduled dry_run env d
          st st1 ok ok1 hinv hstep) h

/-- C6: every record the scheduler persists has an error value exactly when
`success` is false — a successful attempt is recorded with no error value
(`none`, Python `None`) — and this invariant is preserved across the whole
`sync_to_cloud` run, hence holds after every status update it performs. -/
theorem C6_error_iff_failure (repo config_file password : String)
    (scheduled dry_run : Bool) (env : SyncEnv) (dests : List DestConfig)
    (st st' : Store) (b : Bool)
    (hinv : storeConsistent st)
    (hrun : sync_to_cloud repo config_file password scheduled dry_run env dests st =
      some (st', b)) :
    storeConsistent st' := by
  unfold sync_to_cloud at hrun
  split at hrun
  · injection hrun with h2
    injection h2 with h3 h4
    subst h3
    exact hinv
  · exact syncLoop_storeConsistent repo config_file password scheduled dry_run env
      dests st true st' b hinv hrun

/-- C6 witness: the store produced by a concrete failed sync (stderr
`boom`) satisfies the invariant. -/
theorem C6_error_iff_failure_witness :
    storeConsistent
      [("R:rclone:onedrive:backups",
        ⟨some 1000, false, "rclone:onedrive:backups", some "boom"⟩)] :=
  C6_error_iff_failure "R" "cfg" "pw" true false envFailing [destOnedrive] []
    [("R:rclone:onedrive:backups",
      ⟨some 1000, false, "rclone:onedrive:backups", some "boom"⟩)] false
    (fun _ _ h => nomatch h) (by decide)

/-! ## C1: a guard-detected concurrent sync is recorded as a failure -/

/-- C1 counterexample: with a live `rclone serve webdav onedrive:backups`
process in the table, the guard reports running, yet the scheduler writes a
`success=false` record (with a `Skipped:` error) for that destination and
the aggregate result of the run is `false` — refuting the claim that a
guard-skip keeps the aggregate `true` and leaves the status store
untouched. -/
theorem C1_counterexample :
    (is_sync_already_running destOnedrive envBusy.psLines).1 = true ∧
    sync_to_cloud "R" "cfg" "pw" true false envBusy [destOnedrive] [] =
      some ([("R:rclone:onedrive:backups",
        ⟨some 1000, false, "rclone:onedrive:backups",
          some "Skipped: rclone already syncing to onedrive:backups (letting previous sync finish)"⟩)],
        false) := by
  constructor
  · decide
  · decide

/-- C1 amended: a destination whose concurrency guard reports a running
sync is treated as a failure, not a skip: `sync` returns `success=false`
with a `Skipped: …` message, the scheduler writes a status record with
`success=false` carrying that message, and the aggregate success flag
becomes `false`. -/
theorem C1_amended_guard_skip_is_failure (repo config_file password : String)
    (scheduled dry_run : Bool) (env : SyncEnv) (d : DestConfig) (st : Store)
    (all_success : Bool) (n : Int) (m : String)
    (hparse : parse_interval (d.interval.getD "60m") = some n)
    (hfresh : storeGet st (repo ++ ":" ++ get_destination_id d) = none)
    (hrun : is_sync_already_running d env.psLines = (true, m)) :
    ∃ st', syncStep repo config_file password scheduled dry_run env d st all_success =
        some (st', false) ∧
      storeGet st' (repo ++ ":" ++ get_destination_id d) =
        some ⟨some env.now, false, get_destination_id d,
          some ("Skipped: " ++ m ++ " (letting previous sync finish)")⟩ := by
  have hsync : KopiaSyncRunner.sync d config_file password scheduled dry_run env =
      (false, "Skipped: " ++ m ++ " (letting previous sync finish)") := by
    simp only [KopiaSyncRunner.sync, hrun]
    simp
  refine ⟨storeSet st (repo ++ ":" ++ get_destination_id d)
    ⟨some env.now, false, get_destination_id d,
      some ("Skipped: " ++ m ++ " (letting previous sync finish)")⟩, ?_, ?_⟩
  · simp only [syncStep, hparse, hfresh, hsync, update_cloud_sync_status]
    simp
  · rw [storeGet_storeSet]
    simp

/-- C1 amended witness: the concrete busy environment exercises the
amended statement. -/
theorem C1_amended_witness :
    ∃ st', syncStep "R" "cfg" "pw" true false envBusy destOnedrive [] true =
        some (st', false) ∧
      storeGet st' "R:rclone:onedrive:backups" =
        some ⟨some 1000, false, "rclone:onedrive:backups",
          some "Skipped: rclone already syncing to onedrive:backups (letting previous sync finish)"⟩ :=
  C1_amended_guard_skip_is_failure "R" "cfg" "pw" true false envBusy destOnedrive []
    true 3600 "rclone already syncing to onedrive:backups"
    (by decide) (by decide) (by decide)

/-! ## Substring lemmas for the error-message claims -/

theorem isPrefixOf_self_append (l t : List Char) : l.isPrefixOf (l ++ t) = true := by
  induction l with
  | nil => cases t <;> rfl
  | cons c r ih => simp [List.isPrefixOf, ih]

theorem isPrefixOf_extend (n : List Char) :
    ∀ h t : List Char, n.isPrefixOf h = true → n.isPrefixOf (h ++ t) = true := by
  induction n with
  | nil =>
    intro h t _
    cases h with
    | nil => cases t <;> rfl
    | cons c h' => rfl
  | cons c r ih =>
    intro h t hp
    cases h with
    | nil => simp [List.isPrefixOf] at hp
    | cons c' h' =>
      simp only [List.cons_append, List.isPrefixOf, Bool.and_eq_true] at hp ⊢
      exact ⟨hp.1, ih h' t hp.2⟩

theorem listContains_of_isPrefixOf {n h : List Char} (hp : n.isPrefixOf h = true) :
    listContains n h = true := by
  cases h with
  | nil =>
    cases n with
    | nil => rfl
    | cons c r => simp [List.isPrefixOf] at hp
  | cons c r => simp [listContains, hp]

theorem listContains_append_left (n t h : List Char)
    (hc : listContains n t = true) : listContains n (h ++ t) = true := by
  induction h with
  | nil => exact hc
  | cons c r ih => simp [listContains, ih]

theorem listContains_append_right (n h t : List Char)
    (hc : listContains n h = true) : listContains n (h ++ t) = true := by
  induction h with
  | nil =>
    cases n with
    | nil => cases t <;> simp [listContains]
    | cons c r => simp [listContains, List.isEmpty] at hc
  | cons c r ih =>
    simp only [listContains, Bool.or_eq_true, List.cons_append] at hc ⊢
    rcases hc with hc | hc
    · exact Or.inl (isPrefixOf_extend n (c :: r) t hc)
    · exact Or.inr (ih hc)

theorem listContains_joinComma (p : String) (l : List String) (hp : p ∈ l) :
    listContains p.data (joinComma l).data = true := by
  induction l with
  | nil => cases hp
  | cons x rest ih =>
    cases rest with
    | nil =>
      have hx : p = x := by simpa using hp
      subst hx
      have hself : p.data.isPrefixOf p.data = true := by
        have h0 := isPrefixOf_self_append p.data []
        rw [List.append_nil] at h0
        exact h0
      exact listContains_of_isPrefixOf hself
    | cons y rest' =>
      rcases List.mem_cons.mp hp with rfl | hmem
      · show listContains p.data ((p ++ ", ") ++ joinComma (y :: rest')).data = true
        rw [String.data_append, String.data_append, List.append_assoc]
        exact listContains_of_isPrefixOf (isPrefixOf_self_append p.data _)
      · show listContains p.data ((x ++ ", ") ++ joinComma (y :: rest')).data = true
        rw [String.data_append]
        exact listContains_append_left _ _ _ (ih hmem)

/-! ## C3: every missing required parameter is named in the error -/

/-- C3: for a recognized backend type with at least one missing required
parameter, `build_sync_command` returns no command but an error message
that contains the name of every missing required parameter. -/
theorem C3_missing_params_all_named (d : DestConfig) (config_file password : String)
    (dry_run : Bool) (t : String) (info : List (String × String))
    (ht : d.type = some t) (hinfo : backendParams t = some info)
    (hmiss : (info.map Prod.fst).filter (fun p => (getParam d p).isNone) ≠ []) :
    ∃ msg, build_sync_command d config_file password dry_run = .error msg ∧
      ∀ p ∈ info.map Prod.fst, (getParam d p).isNone →
        listContains p.data msg.data = true := by
  have htne : t ≠ "" := fun h => by
    subst h
    simp [backendParams] at hinfo
  refine ⟨"Missing required parameters for " ++ t ++ ": " ++
    joinComma ((info.map Prod.fst).filter fun p => (getParam d p).isNone), ?_, ?_⟩
  · simp only [build_sync_command, ht, Option.getD_some, if_neg htne, hinfo]
    rw [if_pos hmiss]
  · intro p hp hnone
    have hpmem : p ∈ (info.map Prod.fst).filter fun q => (getParam d q).isNone := by
      rw [List.mem_filter]
      exact ⟨hp, by simp [hnone]⟩
    have hjoin := listContains_joinComma p _ hpmem
    rw [String.data_append]
    exact listContains_append_left _ _ _ hjoin

/-- C3 witness: an azure destination missing both `container` and
`storage-account` produces an error mentioning both names. -/
theorem C3_missing_params_witness :
    ∃ msg, build_sync_command destAzureMissing "cfg" "pw" false = .error msg ∧
      listContains "container".data msg.data = true ∧
      listContains "storage-account".data msg.data = true := by
  obtain ⟨msg, hmsg, hall⟩ := C3_missing_params_all_named destAzureMissing "cfg" "pw"
    false "azure" [("container", "--container="), ("storage-account", "--storage-account=")]
    (by decide) (by decide) (by decide)
  exact ⟨msg, hmsg, hall "container" (by decide) (by decide),
    hall "storage-account" (by decide) (by decide)⟩

/-! ## C8: where `--rclone-debug` can appear -/

theorem ne_flag_of_pre (pre v tgt : String)
    (h : pre.data.isPrefixOf tgt.data = false) : ¬(tgt = pre ++ v) := by
  intro he
  rw [he, String.data_append, isPrefixOf_self_append] at h
  exact Bool.noConfusion h

/-- C8 counterexample: an s3 destination whose `sync-args` list contains
`--rclone-debug` gets that flag in the built command even though its
backend type is not rclone, refuting "for every other backend type that
flag never appears". -/
theorem C8_counterexample :
    ∃ cmd, build_sync_command destS3Passthrough "cfg" "pw" false = .ok cmd ∧
      "--rclone-debug" ∈ cmd ∧ destS3Passthrough.type ≠ some "rclone" :=
  ⟨_, rfl, by decide, by decide⟩

/-- C8 amended: the builder itself adds `--rclone-debug` exactly when the
backend type is rclone; for every other recognized backend the flag appears
in the produced command if and only if it is listed verbatim in the
destination's `sync-args` (which are passed through unchanged for
non-rclone backends). -/
theorem C8_amended_rclone_debug (d : DestConfig) (config_file password : String)
    (dry_run : Bool) (t : String) (info : List (String × String)) (cmd : List String)
    (ht : d.type = some t) (hinfo : backendParams t = some info)
    (hok : build_sync_command d config_file password dry_run = .ok cmd) :
    ("--rclone-debug" ∈ cmd ↔ t = "rclone" ∨ "--rclone-debug" ∈ d.syncArgs) := by
  have htne : t ≠ "" := fun h => by
    subst h; simp [backendParams] at hinfo
  have htflag : t ≠ "--rclone-debug" := fun h => by
    subst h; simp [backendParams] at hinfo
  have hpre : ∀ pr ∈ info, pr.2.data.isPrefixOf "--rclone-debug".data = false := by
    simp only [backendParams] at hinfo
    split_ifs at hinfo <;>
      first
        | exact Option.noConfusion hinfo
        | (injection hinfo with h0; subst h0; decide)
  simp only [build_sync_command, ht, Option.getD_some, if_neg htne, hinfo] at hok
  split at hok
  · exact Except.noConfusion hok
  · injection hok with h0
    subst h0
    by_cases hrc : t = "rclone"
    · subst hrc
      simp [List.mem_append, CLOUD_BACKENDS]
    · have hmap : "--rclone-debug" ∉
          info.map (fun pr => pr.2 ++ (getParam d pr.1).getD "") := by
        intro hmem
        obtain ⟨pr, hprmem, hpr⟩ := List.mem_map.mp hmem
        exact ne_flag_of_pre pr.2 ((getParam d pr.1).getD "") "--rclone-debug"
          (hpre pr hprmem) hpr.symm
      have hflat : "--rclone-debug" ∉
          (if t ∈ CLOUD_BACKENDS then ["--flat"] else ([] : List String)) := by
        split <;> simp
      have hdbg : "--rclone-debug" ∉
          (if t = "rclone" then ["--rclone-debug"] else ([] : List String)) := by
        rw [if_neg hrc]; simp
      have hdry : "--rclone-debug" ∉
          (if dry_run = true then ["--dry-run"] else ([] : List String)) := by
        split <;> simp
      have hk : ¬("--rclone-debug" = KOPIA_EXE) := by decide
      have hcf : ¬("--rclone-debug" = "--config-file=" ++ config_file) :=
        ne_flag_of_pre "--config-file=" config_file _ (by decide)
      have hpw : ¬("--rclone-debug" = "--password=" ++ password) :=
        ne_flag_of_pre "--password=" password _ (by decide)
      have htt : ¬("--rclone-debug" = t) := fun h => htflag h.symm
      simp [List.mem_append, hmap, hflat, hdbg, hdry, hrc, hk, hcf, hpw, htt]
      exact fun hm => List.ne_nil_of_mem hm

/-- C8 amended witness: the s3 passthrough destination instantiates the
amended statement. -/
theorem C8_amended_witness :
    ("--rclone-debug" ∈ ["kopia", "--config-file=cfg", "--password=pw", "repository",
        "sync-to", "s3", "--bucket=b", "--delete", "--flat", "--rclone-debug"] ↔
      "s3" = "rclone" ∨ "--rclone-debug" ∈ destS3Passthrough.syncArgs) :=
  C8_amended_rclone_debug destS3Passthrough "cfg" "pw" false "s3"
    [("bucket", "--bucket=")] _ (by decide) (by decide) rfl

/-! ## Strip lemmas for the normalization claim -/

theorem dropWhile_head_false (p : Char → Bool) :
    ∀ (l : List Char) (c : Char) (r : List Char), l.dropWhile p = c :: r → p c = false := by
  intro l
  induction l with
  | nil => intro c r h; cases h
  | cons x xs ih =>
    intro c r h
    rw [List.dropWhile_cons] at h
    by_cases hx : p x = true
    · rw [if_pos hx] at h
      exact ih c r h
    · rw [if_neg hx] at h
      injection h with h1 h2
      subst h1
      simp at hx
      exact hx

theorem head?_dropWhile_false (p : Char → Bool) (l : List Char) (c : Char)
    (h : (l.dropWhile p).head? = some c) : p c = false := by
  cases hd : l.dropWhile p with
  | nil => rw [hd] at h; cases h
  | cons x xs =>
    rw [hd] at h
    injection h with h1
    subst h1
    exact dropWhile_head_false p l x xs hd

theorem getLast?_rstripP (p : Char → Bool) (l : List Char) (c : Char)
    (h : (rstripP p l).getLast? = some c) : p c = false := by
  unfold rstripP at h
  rw [List.getLast?_reverse] at h
  exact head?_dropWhile_false p l.reverse c h

theorem rstripP_no_op (p : Char → Bool) (l : List Char)
    (h : ∀ c, l.getLast? = some c → p c = false) : rstripP p l = l := by
  unfold rstripP
  cases hr : l.reverse with
  | nil =>
    have hl : l = [] := by simpa using congrArg List.reverse hr
    subst hl
    rfl
  | cons x xs =>
    have hx : l.getLast? = some x := by
      rw [← List.head?_reverse, hr]
      rfl
    rw [List.dropWhile_cons, if_neg (by simp [h x hx]), ← hr, List.reverse_reverse]

theorem rstripP_append_sat (p : Char → Bool) (l : List Char) (c : Char)
    (hc : p c = true) : rstripP p (l ++ [c]) = rstripP p l := by
  unfold rstripP
  simp [List.reverse_append, List.dropWhile_cons, hc]

theorem rstripP_append_unsat (p : Char → Bool) (l : List Char) (c : Char)
    (hc : p c = false) : rstripP p (l ++ [c]) = l ++ [c] :=
  rstripP_no_op p _ (fun c' h' => by
    rw [List.getLast?_concat] at h'
    injection h' with h1
    subst h1
    exact hc)

theorem rstripP_isPre (p : Char → Bool) (l : List Char) : rstripP p l <+: l := by
  unfold rstripP
  exact (List.reverse_suffix).mp (by
    rw [List.reverse_reverse]
    exact List.dropWhile_suffix p)

theorem head?_of_isPre {a b : List Char} (h : a <+: b) {c : Char}
    (hc : a.head? = some c) : b.head? = some c := by
  obtain ⟨t, rfl⟩ := h
  cases a with
  | nil => cases hc
  | cons x xs =>
    injection hc with h1
    subst h1
    rfl

theorem dropWhile_no_op (p : Char → Bool) (l : List Char)
    (h : ∀ c, l.head? = some c → p c = false) : l.dropWhile p = l := by
  cases l with
  | nil => rfl
  | cons x xs => rw [List.dropWhile_cons, if_neg (by simp [h x rfl])]

theorem getLast?_of_suffix {a b : List Char} (h : a <:+ b) (hne : a ≠ []) :
    b.getLast? = a.getLast? := by
  obtain ⟨t, rfl⟩ := h
  rw [← List.head?_reverse, ← List.head?_reverse a, List.reverse_append]
  cases ha : a.reverse with
  | nil => exact absurd (by simpa using congrArg List.reverse ha) hne
  | cons x xs => rfl

theorem mem_of_getLast?_eq {l : List Char} {c : Char} (h : l.getLast? = some c) :
    c ∈ l := by
  induction l with
  | nil => cases h
  | cons x xs ih =>
    cases xs with
    | nil =>
      injection h with h1
      subst h1
      exact List.mem_singleton.mpr rfl
    | cons y ys =>
      rw [List.getLast?_cons_cons] at h
      exact List.mem_cons_of_mem x (ih h)

theorem dropWhile_ne_nil_of_mem (p : Char → Bool) (l : List Char) (c : Char)
    (hc : c ∈ l) (hpc : p c = false) : l.dropWhile p ≠ [] := by
  induction l with
  | nil => cases hc
  | cons x xs ih =>
    rw [List.dropWhile_cons]
    by_cases hx : p x = true
    · rw [if_pos hx]
      rcases List.mem_cons.mp hc with rfl | hmem
      · rw [hx] at hpc; cases hpc
      · exact ih hmem
    · rw [if_neg hx]
      simp

theorem dropWhile_append_ne_nil (p : Char → Bool) (a b : List Char)
    (h : a.dropWhile p ≠ []) : (a ++ b).dropWhile p = a.dropWhile p ++ b := by
  induction a with
  | nil => exact absurd rfl h
  | cons x xs ih =>
    rw [List.cons_append, List.dropWhile_cons, List.dropWhile_cons]
    by_cases hx : p x = true
    · rw [if_pos hx, if_pos hx]
      apply ih
      rw [List.dropWhile_cons, if_pos hx] at h
      exact h
    · rw [if_neg hx, if_neg hx, List.cons_append]

/-! ## C7: normalization idempotence -/

/-- C7 counterexample: on the input `a"/` (a quote followed by a trailing
slash) normalization is not idempotent — one pass yields `a"`, a second
pass yields `a` — and for `X = a"` the inputs `X/` and `X` do not
normalize to the same string. -/
theorem C7_counterexample :
    normalize_remote_path (normalize_remote_path "a\"/") ≠ normalize_remote_path "a\"/" ∧
    normalize_remote_path ("a\"" ++ "/") ≠ normalize_remote_path "a\"" := by
  decide

/-- C7 amended: normalization is idempotent for every input whose
normalized form does not end in a quote character, and the inputs `X/`,
`"X"`, and `X` all normalize to the same string for every `X` that does
not end in a quote character (the counterexample shows both restrictions
are necessary: a quote exposed by stripping a trailing slash is stripped
only on the next pass). -/
theorem C7_amended_normalize (p X : String)
    (hp : ∀ c, (normalize_remote_path p).data.getLast? = some c → isQuoteChar c = false)
    (hX : ∀ c, X.data.getLast? = some c → isQuoteChar c = false) :
    normalize_remote_path (normalize_remote_path p) = normalize_remote_path p ∧
    normalize_remote_path (X ++ "/") = normalize_remote_path X ∧
    normalize_remote_path ("\"" ++ X ++ "\"") = normalize_remote_path X := by
  refine ⟨?_, ?_, ?_⟩
  · -- idempotence
    set q := stripP isQuoteChar p.data with hq
    set r := rstripP (fun c => decide (c = '/')) q with hr
    have hdr : normalize_remote_path p = ⟨r⟩ := rfl
    rw [hdr]
    show (⟨rstripP _ (stripP isQuoteChar r)⟩ : String) = ⟨r⟩
    have hslash : rstripP (fun c => decide (c = '/')) r = r :=
      rstripP_no_op _ r (fun c hc => by
        have := getLast?_rstripP _ q c (hr ▸ hc)
        simpa using this)
    have hquote_last : rstripP isQuoteChar r = r :=
      rstripP_no_op _ r (fun c hc => hp c hc)
    have hquote_head : r.dropWhile isQuoteChar = r := by
      apply dropWhile_no_op
      intro c hc
      have hq' : q.head? = some c := head?_of_isPre (hr ▸ rstripP_isPre _ q) hc
      have hdq : (p.data.dropWhile isQuoteChar).head? = some c :=
        head?_of_isPre (rstripP_isPre _ _) hq'
      exact head?_dropWhile_false _ _ _ hdq
    show (⟨rstripP _ (rstripP isQuoteChar (r.dropWhile isQuoteChar))⟩ : String) = ⟨r⟩
    rw [hquote_head, hquote_last, hslash]
  · -- X/ ≡ X
    rcases hX0 : X.data with _ | ⟨x, xs⟩
    · obtain ⟨Xd⟩ := X
      simp only at hX0
      subst hX0
      decide
    · obtain ⟨c, hc⟩ : ∃ c, X.data.getLast? = some c := by
        have : X.data.getLast?.isSome := by
          rw [List.getLast?_isSome, hX0]
          simp
        exact Option.isSome_iff_exists.mp this
      have hqc : isQuoteChar c = false := hX c hc
      have hdwne : X.data.dropWhile isQuoteChar ≠ [] :=
        dropWhile_ne_nil_of_mem _ _ c (mem_of_getLast?_eq hc) hqc
      have hdata : (X ++ "/").data = X.data ++ ['/'] := by
        rw [String.data_append]
      show (⟨rstripP _ (stripP isQuoteChar (X ++ "/").data)⟩ : String) = _
      rw [hdata]
      unfold stripP
      rw [dropWhile_append_ne_nil _ _ _ hdwne,
        rstripP_append_unsat _ _ _ (by decide),
        rstripP_append_sat _ _ _ (by simp)]
      have hlastdw : ∀ c', (X.data.dropWhile isQuoteChar).getLast? = some c' →
          isQuoteChar c' = false := by
        intro c' hc'
        have : X.data.getLast? = some c' := by
          rw [getLast?_of_suffix (List.dropWhile_suffix isQuoteChar) hdwne]
          exact hc'
        exact hX c' this
      show _ = (⟨rstripP _ (stripP isQuoteChar X.data)⟩ : String)
      unfold stripP
      rw [rstripP_no_op isQuoteChar _ hlastdw]
  · -- "X" ≡ X
    rcases hX0 : X.data with _ | ⟨x, xs⟩
    · obtain ⟨Xd⟩ := X
      simp only at hX0
      subst hX0
      decide
    · obtain ⟨c, hc⟩ : ∃ c, X.data.getLast? = some c := by
        have : X.data.getLast?.isSome := by
          rw [List.getLast?_isSome, hX0]
          simp
        exact Option.isSome_iff_exists.mp this
      have hqc : isQuoteChar c = false := hX c hc
      have hdwne : X.data.dropWhile isQuoteChar ≠ [] :=
        dropWhile_ne_nil_of_mem _ _ c (mem_of_getLast?_eq hc) hqc
      have hlastdw : ∀ c', (X.data.dropWhile isQuoteChar).getLast? = some c' →
          isQuoteChar c' = false := by
        intro c' hc'
        have : X.data.getLast? = some c' := by
          rw [getLast?_of_suffix (List.dropWhile_suffix isQuoteChar) hdwne]
          exact hc'
        exact hX c' this
      have hdata : ("\"" ++ X ++ "\"").data = '"' :: (X.data ++ ['"']) := by
        rw [String.data_append, String.data_append]
        rfl
      show (⟨rstripP _ (stripP isQuoteChar ("\"" ++ X ++ "\"").data)⟩ : String) = _
      rw [hdata]
      unfold stripP
      rw [List.dropWhile_cons, if_pos (by decide),
        dropWhile_append_ne_nil _ _ _ hdwne,
        rstripP_append_sat _ _ _ (by decide),
        rstripP_no_op isQuoteChar _ hlastdw]
      show _ = (⟨rstripP _ (stripP isQuoteChar X.data)⟩ : String)
      unfold stripP
      rw [rstripP_no_op isQuoteChar _ hlastdw]

/-- C7 amended witness: a concrete quoted path with a trailing slash, and
a concrete quote-free `X`. -/
theorem C7_amended_normalize_witness :
    normalize_remote_path (normalize_remote_path "\"path/\"") =
        normalize_remote_path "\"path/\"" ∧
      normalize_remote_path ("onedrive:backups" ++ "/") =
        normalize_remote_path "onedrive:backups" ∧
      normalize_remote_path ("\"" ++ "onedrive:backups" ++ "\"") =
        normalize_remote_path "onedrive:backups" :=
  C7_amended_normalize "\"path/\"" "onedrive:backups" (by decide) (by decide)

/-! ## Matcher lemmas for C2 -/

theorem searchFrom_cons (T : List Char) (c : Char) (r : List Char) :
    searchFrom T (c :: r) = (matchHere T (c :: r) || searchFrom T r) := rfl

theorem matchHere_head_ne (T : List Char) (c : Char) (t : List Char) (h : c ≠ 's') :
    matchHere T (c :: t) = false := by
  have hpre : (['s', 'e', 'r', 'v', 'e'].isPrefixOf (c :: t)) = false := by
    have hsc : ('s' == c) = false := beq_eq_false_iff_ne.mpr fun hh => h hh.symm
    simp [List.isPrefixOf, hsc]
  unfold matchHere litThen
  simp [hpre]

theorem searchFrom_append_no_s (T : List Char) :
    ∀ pre t : List Char, (∀ c ∈ pre, c ≠ 's') →
      searchFrom T (pre ++ t) = searchFrom T t := by
  intro pre
  induction pre with
  | nil => intro t _; rfl
  | cons c r ih =>
    intro t h
    rw [List.cons_append, searchFrom_cons,
      matchHere_head_ne T c _ (h c (List.mem_cons_self c r)), Bool.false_or]
    exact ih t fun c' hc' => h c' (List.mem_cons_of_mem c hc')

theorem matchHere_nonws (T : List Char) :
    ∀ X : List Char, (∀ c ∈ X, pyIsSpace c = false) →
      matchHere T (X ++ tailToks) = false := by
  intro X hX
  rcases X with _ | ⟨c1, _ | ⟨c2, _ | ⟨c3, _ | ⟨c4, _ | ⟨c5, Y⟩⟩⟩⟩⟩
  · rfl
  · simp [matchHere, litThen, tailToks, List.isPrefixOf]
  · simp [matchHere, litThen, tailToks, List.isPrefixOf]
  · simp [matchHere, litThen, tailToks, List.isPrefixOf]
  · simp [matchHere, litThen, tailToks, List.isPrefixOf]
  · by_cases hpre : (['s', 'e', 'r', 'v', 'e'].isPrefixOf
        ((c1 :: c2 :: c3 :: c4 :: c5 :: Y) ++ tailToks)) = true
    · unfold matchHere litThen
      rw [if_pos hpre]
      show wsPlus (litThen ['w', 'e', 'b', 'd', 'a', 'v'] (wsPlus (qpTail T)))
        (Y ++ tailToks) = false
      cases Y with
      | nil => rfl
      | cons d Y' =>
        have hd : pyIsSpace d = false := hX d (by simp)
        show (pyIsSpace d && wsStar _ (Y' ++ tailToks)) = false
        rw [hd, Bool.false_and]
    · unfold matchHere litThen
      rw [if_neg hpre]

theorem searchFrom_nonws (T : List Char) :
    ∀ X : List Char, (∀ c ∈ X, pyIsSpace c = false) →
      searchFrom T (X ++ tailToks) = false := by
  intro X
  induction X with
  | nil =>
    intro _
    have h0 := searchFrom_append_no_s T tailToks [] (by decide)
    rw [List.append_nil] at h0
    exact h0.trans rfl
  | cons c r ih =>
    intro h
    have hm := matchHere_nonws T (c :: r) h
    rw [List.cons_append] at hm
    rw [List.cons_append, searchFrom_cons, hm, Bool.false_or]
    exact ih fun c' hc' => h c' (List.mem_cons_of_mem c hc')

theorem matchHere_anchor (T : List Char) (x : Char) (X' : List Char)
    (hx : pyIsSpace x = false) :
    matchHere T (anchorToks ++ ((x :: X') ++ tailToks)) =
      qpTail T ((x :: X') ++ tailToks) := by
  have hsp : pyIsSpace ' ' = true := by decide
  have hw : pyIsSpace 'w' = false := by decide
  simp [anchorToks, matchHere, litThen, List.isPrefixOf, wsPlus, wsStar, hsp, hw, hx]

theorem searchFrom_line (T X : List Char) (x : Char) (X' : List Char)
    (hXeq : X = x :: X') (hx : pyIsSpace x = false)
    (hX : ∀ c ∈ X, pyIsSpace c = false) :
    searchFrom T (preToks ++ (anchorToks ++ (X ++ tailToks))) =
      qpTail T (X ++ tailToks) := by
  rw [searchFrom_append_no_s T preToks _ (by decide)]
  have hanchor : anchorToks ++ (X ++ tailToks) =
      's' :: (['e', 'r', 'v', 'e', ' ', 'w', 'e', 'b', 'd', 'a', 'v', ' '] ++
        (X ++ tailToks)) := rfl
  rw [hanchor, searchFrom_cons, searchFrom_append_no_s T _ _ (by decide),
    searchFrom_nonws T X hX, Bool.or_false, ← hanchor]
  subst hXeq
  exact matchHere_anchor T x X' hx

theorem isPrefixOf_append_cancel (a b c : List Char) :
    ((a ++ b).isPrefixOf (a ++ c)) = b.isPrefixOf c := by
  induction a with
  | nil => rfl
  | cons x xs ih => simp [List.isPrefixOf, ih]

theorem qpTail_false (Tg s : List Char) (p0 : Char) (s' : List Char)
    (hs : s = p0 :: s') (hq : isQuoteChar p0 = false)
    (h1 : tryPath Tg s = false) : qpTail Tg s = false := by
  subst hs
  unfold qpTail
  rw [h1, Bool.false_or]
  show (isQuoteChar p0 && tryPath Tg s') = false
  rw [hq, Bool.false_and]

theorem qpTail_exact (Pd : List Char) : qpTail Pd (Pd ++ tailToks) = true := by
  have htry : tryPath Pd (Pd ++ tailToks) = true := by
    unfold tryPath
    rw [isPrefixOf_self_append, List.drop_left, Bool.true_and]
    decide
  unfold qpTail
  rw [htry, Bool.true_or]

theorem qpTail_quoted (Pd : List Char) :
    qpTail Pd (('"' :: (Pd ++ ['"'])) ++ tailToks) = true := by
  have harr : (Pd ++ ['"']) ++ tailToks = Pd ++ ('"' :: tailToks) := by
    rw [List.append_assoc]
    rfl
  have h2 : tryPath Pd ((Pd ++ ['"']) ++ tailToks) = true := by
    rw [harr]
    unfold tryPath
    rw [isPrefixOf_self_append, List.drop_left, Bool.true_and]
    decide
  show (tryPath Pd ('"' :: ((Pd ++ ['"']) ++ tailToks)) ||
      (isQuoteChar '"' && tryPath Pd ((Pd ++ ['"']) ++ tailToks))) = true
  rw [h2]
  simp [isQuoteChar]

theorem qpTail_guard_subdir (Pd : List Char) (p0 : Char) (Pd' : List Char)
    (hPd : Pd = p0 :: Pd') (hq : isQuoteChar p0 = false) :
    qpTail (Pd ++ ['/', 's', 'u', 'b', 'd', 'i', 'r']) (Pd ++ tailToks) = false := by
  have h1 : tryPath (Pd ++ ['/', 's', 'u', 'b', 'd', 'i', 'r']) (Pd ++ tailToks) = false := by
    unfold tryPath
    rw [isPrefixOf_append_cancel]
    have hsub : (['/', 's', 'u', 'b', 'd', 'i', 'r'].isPrefixOf tailToks) = false := by decide
    rw [hsub, Bool.false_and]
  exact qpTail_false _ _ p0 (Pd' ++ tailToks) (by rw [hPd]; rfl) hq h1

theorem qpTail_line_subdir (Pd : List Char) (p0 : Char) (Pd' : List Char)
    (hPd : Pd = p0 :: Pd') (hq : isQuoteChar p0 = false) :
    qpTail Pd ((Pd ++ ['/', 's', 'u', 'b', 'd', 'i', 'r']) ++ tailToks) = false := by
  have harr : (Pd ++ ['/', 's', 'u', 'b', 'd', 'i', 'r']) ++ tailToks =
      Pd ++ (['/', 's', 'u', 'b', 'd', 'i', 'r'] ++ tailToks) := by
    rw [List.append_assoc]
  have h1 : tryPath Pd ((Pd ++ ['/', 's', 'u', 'b', 'd', 'i', 'r']) ++ tailToks) = false := by
    rw [harr]
    unfold tryPath
    rw [isPrefixOf_self_append, List.drop_left, Bool.true_and]
    decide
  exact qpTail_false _ _ p0 (Pd' ++ (['/', 's', 'u', 'b', 'd', 'i', 'r'] ++ tailToks))
    (by rw [harr, hPd]; rfl) hq h1

/-! ## C2: the matcher accepts exactly the served path, never a prefix -/

/-- C2: for every remote path `P` (nonempty, free of whitespace and quote
characters — as a normalized rclone `remote:path` is), the command-line
matcher accepts the spawned `rclone -v serve webdav <P> --addr …` line when
checking `P`, accepts it equally when the line carries `P` wrapped in
quotes, rejects that same line when checking `P ++ "/subdir"`, and rejects
a line serving `P ++ "/subdir"` when checking `P`: the match is
exact-segment, never a prefix match. -/
theorem C2_exact_segment_match (P : String) (hne : P.data ≠ [])
    (hP : ∀ c ∈ P.data, pyIsSpace c = false ∧ isQuoteChar c = false) :
    path_in_cmdline ("rclone -v serve webdav " ++ P ++ " --addr 127.0.0.1:0") P = true ∧
    path_in_cmdline ("rclone -v serve webdav \"" ++ P ++ "\" --addr 127.0.0.1:0") P = true ∧
    path_in_cmdline ("rclone -v serve webdav " ++ P ++ " --addr 127.0.0.1:0")
      (P ++ "/subdir") = false ∧
    path_in_cmdline ("rclone -v serve webdav " ++ P ++ "/subdir --addr 127.0.0.1:0")
      P = false := by
  obtain ⟨p0, Pd', hPd⟩ : ∃ p0 Pd', P.data = p0 :: Pd' := by
    cases hc : P.data with
    | nil => exact absurd hc hne
    | cons a b => exact ⟨a, b, rfl⟩
  have hp0 : pyIsSpace p0 = false ∧ isQuoteChar p0 = false :=
    hP p0 (by rw [hPd]; exact List.mem_cons_self p0 Pd')
  have hPws : ∀ c ∈ P.data, pyIsSpace c = false := fun c hc => (hP c hc).1
  have hdata1 : ("rclone -v serve webdav " ++ P ++ " --addr 127.0.0.1:0").data =
      preToks ++ (anchorToks ++ (P.data ++ tailToks)) := by
    rw [String.data_append, String.data_append]
    have ha : "rclone -v serve webdav ".data = preToks ++ anchorToks := by decide
    have hb : " --addr 127.0.0.1:0".data = tailToks := by decide
    rw [ha, hb]
    simp [List.append_assoc]
  refine ⟨?_, ?_, ?_, ?_⟩
  · unfold path_in_cmdline
    rw [hdata1, searchFrom_line P.data P.data p0 Pd' hPd hp0.1 hPws]
    exact qpTail_exact P.data
  · have hdata2 : ("rclone -v serve webdav \"" ++ P ++ "\" --addr 127.0.0.1:0").data =
        preToks ++ (anchorToks ++ (('"' :: (P.data ++ ['"'])) ++ tailToks)) := by
      rw [String.data_append, String.data_append]
      have ha : "rclone -v serve webdav \"".data = (preToks ++ anchorToks) ++ ['"'] := by
        decide
      have hb : "\" --addr 127.0.0.1:0".data = '"' :: tailToks := by decide
      rw [ha, hb]
      simp [List.append_assoc]
    have hXq : ∀ c ∈ ('"' :: (P.data ++ ['"'])), pyIsSpace c = false := by
      intro c hc
      rcases List.mem_cons.mp hc with rfl | hc'
      · decide
      · rcases List.mem_append.mp hc' with h | h
        · exact (hP c h).1
        · have hc2 : c = '"' := by simpa using h
          subst hc2
          decide
    unfold path_in_cmdline
    rw [hdata2, searchFrom_line P.data ('"' :: (P.data ++ ['"'])) '"' (P.data ++ ['"'])
      rfl (by decide) hXq]
    exact qpTail_quoted P.data
  · have hrem : (P ++ "/subdir").data = P.data ++ ['/', 's', 'u', 'b', 'd', 'i', 'r'] := by
      rw [String.data_append]
    unfold path_in_cmdline
    rw [hrem, hdata1,
      searchFrom_line (P.data ++ ['/', 's', 'u', 'b', 'd', 'i', 'r']) P.data p0 Pd'
        hPd hp0.1 hPws]
    exact qpTail_guard_subdir P.data p0 Pd' hPd hp0.2
  · have hdata4 : ("rclone -v serve webdav " ++ P ++ "/subdir --addr 127.0.0.1:0").data =
        preToks ++ (anchorToks ++
          ((P.data ++ ['/', 's', 'u', 'b', 'd', 'i', 'r']) ++ tailToks)) := by
      rw [String.data_append, String.data_append]
      have ha : "rclone -v serve webdav ".data = preToks ++ anchorToks := by decide
      have hb : "/subdir --addr 127.0.0.1:0".data =
          ['/', 's', 'u', 'b', 'd', 'i', 'r'] ++ tailToks := by decide
      rw [ha, hb]
      simp [List.append_assoc]
    have hXs : ∀ c ∈ (P.data ++ ['/', 's', 'u', 'b', 'd', 'i', 'r']),
        pyIsSpace c = false := by
      intro c hc
      rcases List.mem_append.mp hc with h | h
      · exact (hP c h).1
      · simp only [List.mem_cons, List.not_mem_nil, or_false] at h
        rcases h with rfl | rfl | rfl | rfl | rfl | rfl | rfl <;> decide
    unfold path_in_cmdline
    rw [hdata4, searchFrom_line P.data (P.data ++ ['/', 's', 'u', 'b', 'd', 'i', 'r'])
      p0 (Pd' ++ ['/', 's', 'u', 'b', 'd', 'i', 'r']) (by rw [hPd]; rfl) hp0.1 hXs]
    exact qpTail_line_subdir P.data p0 Pd' hPd hp0.2

/-- C2 witness: the concrete remote path `onedrive:backups`. -/
theorem C2_exact_segment_match_witness :
    path_in_cmdline ("rclone -v serve webdav " ++ "onedrive:backups" ++
        " --addr 127.0.0.1:0") "onedrive:backups" = true ∧
      path_in_cmdline ("rclone -v serve webdav \"" ++ "onedrive:backups" ++
        "\" --addr 127.0.0.1:0") "onedrive:backups" = true ∧
      path_in_cmdline ("rclone -v serve webdav " ++ "onedrive:backups" ++
        " --addr 127.0.0.1:0") ("onedrive:backups" ++ "/subdir") = false ∧
      path_in_cmdline ("rclone -v serve webdav " ++ "onedrive:backups" ++
        "/subdir --addr 127.0.0.1:0") "onedrive:backups" = false :=
  C2_exact_segment_match "onedrive:backups" (by decide) (by decide)

end KopiaHelpers
